import Mathlib

/-!
# EasyScanner (OpenHRP/Parser/EasyScanner.h)

A shallow embedding of the text scanner class `EasyScanner` and of the
symbol table it carries, followed by theorems about the symbol table
operations (`registerSymbol`, `getSymbolID`) and about the inline readers
of the header (`readWord`, `readString`, `readLF`, `readLFEOF`, `isEOF`
and the `...Ex` wrappers).

Conventions of the embedding:

* `std::string` is `String`, `int` is `Int` (no arithmetic on identifiers
  is performed anywhere, so no wrap-around is involved), `char` is `Char`:
  a byte is the character of its code, and the conversion of a `char` to
  `int` is that of a signed 8-bit `char` (`charCode`).
* `std::map<std::string, int>` is a list of pairs kept in strictly
  increasing key order (the order of `std::less<std::string>`), so keys
  are unique; `find` and `insert` are the comparator based searches of the
  container.
* `char* text` is the list of bytes from the cursor up to (excluding) the
  terminating NUL; `*text` is the head of that list, or NUL when the list
  is empty; `text++` is the tail.
* a member function that can change the scanner returns the new scanner
  next to its result.
-/

namespace OpenHRP

/-! ## Symbol table -/

/-- Key comparison of `std::map<std::string, int>`: lexicographic order on
the characters of the two strings. -/
def keyLess (a b : String) : Prop := a.toList < b.toList

instance (a b : String) : Decidable (keyLess a b) := by
  unfold keyLess; infer_instance

/-- The pair type stored in the table: `std::pair<std::string, int>`. -/
abbrev SymbolPair := String × Int

/-- The entries are in strictly increasing key order. -/
def KeysIncreasing (l : List SymbolPair) : Prop :=
  l.Pairwise (fun p q => keyLess p.1 q.1)

/-- The table `std::map<std::string, int>`. -/
structure SymbolMap where
  entries : List SymbolPair
  ordered : KeysIncreasing entries

/-- The search `std::map::find` on the ordered entries: skip the keys smaller than the
searched one, then report the entry when its key is not greater. -/
def findEntry : List SymbolPair → String → Option Int
  | [], _ => none
  | (k, v) :: rest, key =>
    if keyLess k key then findEntry rest key
    else if keyLess key k then none
    else some v

/-- The insertion `std::map::insert` on the ordered entries: the pair is placed at its
position in key order; when an entry with an equivalent key is already
there, nothing is changed. -/
def insertEntry : List SymbolPair → SymbolPair → List SymbolPair
  | [], p => [p]
  | q :: rest, p =>
    if keyLess q.1 p.1 then q :: insertEntry rest p
    else if keyLess p.1 q.1 then p :: q :: rest
    else q :: rest

theorem keyLess_irrefl (a : String) : ¬ keyLess a a := by
  unfold keyLess; exact lt_irrefl _

theorem keyLess_trans {a b c : String} (h₁ : keyLess a b) (h₂ : keyLess b c) :
    keyLess a c := by
  unfold keyLess at *; exact lt_trans h₁ h₂

theorem keyLess_asymm {a b : String} (h : keyLess a b) : ¬ keyLess b a := by
  unfold keyLess at *; exact lt_asymm h

theorem eq_of_not_keyLess {a b : String} (h₁ : ¬ keyLess a b) (h₂ : ¬ keyLess b a) :
    a = b := by
  unfold keyLess at *
  exact String.toList_inj.mp (le_antisymm (not_lt.mp h₂) (not_lt.mp h₁))

theorem mem_insertEntry {l : List SymbolPair} {p x : SymbolPair}
    (h : x ∈ insertEntry l p) : x = p ∨ x ∈ l := by
  induction l with
  | nil => simp [insertEntry] at h; exact Or.inl h
  | cons q rest ih =>
    unfold insertEntry at h
    split_ifs at h with h₁ h₂
    · rcases List.mem_cons.mp h with h | h
      · exact Or.inr (h ▸ List.mem_cons_self _ _)
      · rcases ih h with h | h
        · exact Or.inl h
        · exact Or.inr (List.mem_cons_of_mem _ h)
    · rcases List.mem_cons.mp h with h | h
      · exact Or.inl h
      · exact Or.inr h
    · exact Or.inr h

theorem insertEntry_ordered {l : List SymbolPair} (p : SymbolPair)
    (h : KeysIncreasing l) : KeysIncreasing (insertEntry l p) := by
  induction l with
  | nil => simp [insertEntry, KeysIncreasing]
  | cons q rest ih =>
    unfold KeysIncreasing at h ih ⊢
    obtain ⟨hq, hrest⟩ := List.pairwise_cons.mp h
    unfold insertEntry
    split_ifs with h₁ h₂
    · refine List.pairwise_cons.mpr ⟨?_, ih hrest⟩
      intro x hx
      rcases mem_insertEntry hx with hx | hx
      · exact hx ▸ h₁
      · exact hq x hx
    · refine List.pairwise_cons.mpr ⟨?_, h⟩
      intro x hx
      rcases List.mem_cons.mp hx with hx | hx
      · exact hx ▸ h₂
      · exact keyLess_trans h₂ (hq x hx)
    · exact h

/-- The empty table of a freshly constructed scanner. -/
def SymbolMap.empty : SymbolMap := ⟨[], List.Pairwise.nil⟩

/-- The call `symbols->find(symbol)`; `none` stands for `symbols->end()`. -/
def SymbolMap.find (m : SymbolMap) (symbol : String) : Option Int :=
  findEntry m.entries symbol

/-- The call `symbols->insert(SymbolPair(symbol, id))`. -/
def SymbolMap.insert (m : SymbolMap) (p : SymbolPair) : SymbolMap :=
  ⟨insertEntry m.entries p, insertEntry_ordered p m.ordered⟩


/-! ## Scanner state -/

/-- The class `EasyScanner::Exception`. -/
structure Exception where
  message : String
  filename : String
  lineNumber : Int
  deriving DecidableEq

/-- The data members of `EasyScanner`. `text` is the cursor (see the
conventions above) and `textBuf` the whole buffer; `size` and `textBufEnd`
are determined by `textBuf` and are not kept separately. -/
structure EasyScanner where
  intValue : Int
  doubleValue : Float
  stringValue : String
  charValue : Char
  symbolValue : Int
  defaultErrorMessage : String
  lineNumber : Int
  text : List Char
  filename : String
  textBuf : List Char
  lineNumberOffset : Int
  commentChar : Int
  quoteChar : Int
  isLineOriented : Bool
  whiteSpaceChars : List Int
  symbols : SymbolMap

namespace EasyScanner

/-- The terminating byte of the buffer. -/
def NUL : Char := Char.ofNat 0

/-- The line feed character. -/
def LF : Char := Char.ofNat 10

/-- The carriage return character. -/
def CR : Char := Char.ofNat 13

/-- The tabulator character. -/
def TAB : Char := Char.ofNat 9

/-- A `char` converted to `int`, as in `return charValue;` of `readCharEx`
and in the comparisons with `commentChar`, `quoteChar` and the entries of
`whiteSpaceChars`. A `char` is a signed byte: the bytes 0 to 127 are
themselves and the bytes 128 to 255 are the values -128 to -1 (the byte
0xE9 is -23). -/
def charCode (c : Char) : Int :=
  if c.toNat % 256 < 128 then ((c.toNat % 256 : Nat) : Int)
  else ((c.toNat % 256 : Nat) : Int) - 256

/-- The byte under a cursor, `*text`: NUL at the end of the buffer. -/
def deref (text : List Char) : Char := text.headD NUL

/-- Member `registerSymbol(int id, const std::string& symbol)`. -/
def registerSymbol (s : EasyScanner) (id : Int) (symbol : String) : EasyScanner :=
  { s with symbols := s.symbols.insert (symbol, id) }

/-- Member `getSymbolID(const std::string& symbol)`: the result and the
scanner after the call (the body assigns nothing). -/
def getSymbolID (s : EasyScanner) (symbol : String) : Int × EasyScanner :=
  let p := s.symbols.find symbol
  (match p with
   | some second => second
   | none => 0, s)

/-- A scanner state for the concrete examples: the given text with the
cursor at its head, line 1, an empty symbol table, no extra white space
characters, the given comment character and line mode. -/
def start (text : List Char) (commentChar : Int) (lineOriented : Bool) : EasyScanner :=
  { intValue := 0, doubleValue := 0, stringValue := "", charValue := NUL,
    symbolValue := 0, defaultErrorMessage := "", lineNumber := 1, text := text,
    filename := "", textBuf := text, lineNumberOffset := 1,
    commentChar := commentChar, quoteChar := 34,
    isLineOriented := lineOriented, whiteSpaceChars := [],
    symbols := SymbolMap.empty }

/-! ## Members declared in the header and defined out of line

The header only declares these members. The inline members below are
defined over any behaviour of them. -/

/-- The out-of-line members called by the inline readers `readWord`,
`readString`, `isEOF`, `readLF` and `readLFEOF`. -/
structure Primitives where
  skipSpace : EasyScanner → EasyScanner
  readLF0 : EasyScanner → Bool × EasyScanner
  readWord0 : EasyScanner → Bool × EasyScanner
  readString0 : Int → EasyScanner → Bool × EasyScanner

/-- The type of an out-of-line plain reader that reports a missing token
by returning false and raises nothing (`readInt`, `readDouble`, `readChar`,
`readSymbol`). -/
abbrev PlainReader := EasyScanner → Bool × EasyScanner

/-- The type of the out-of-line member `readQuotedString(bool)`: it returns
true or false, or raises a diagnostic by itself (an unterminated quoted
string). -/
abbrev QuotedStringReader := Bool → EasyScanner → Except Exception (Bool × EasyScanner)

/-! ## Inline members of the header -/

/-- Member `readWord()`. -/
def readWord (p : Primitives) (s : EasyScanner) : Bool × EasyScanner :=
  let s := p.skipSpace s
  p.readWord0 s

/-- Member `readString(const int delimiterChar = ',')`. -/
def readString (p : Primitives) (s : EasyScanner) (delimiterChar : Int) :
    Bool × EasyScanner :=
  let s := p.skipSpace s
  p.readString0 delimiterChar s

/-- Member `isEOF()`. -/
def isEOF (p : Primitives) (s : EasyScanner) : Bool × EasyScanner :=
  let s := p.skipSpace s
  (deref s.text == NUL, s)

/-- Member `readLF()`. -/
def readLF (p : Primitives) (s : EasyScanner) : Bool × EasyScanner :=
  let s := p.skipSpace s
  p.readLF0 s

/-- Member `readLFEOF()`. -/
def readLFEOF (p : Primitives) (s : EasyScanner) : Bool × EasyScanner :=
  let s := p.skipSpace s
  match p.readLF0 s with
  | (r, s) => (if r then true else deref s.text == NUL, s)

/-- Modelled from the spec: `throwException(message)`, declared in the
header and defined out of line. It raises a diagnostic carrying the current
source name, the current line number, and either the supplied message or
the configured default message (`none` is the null pointer). -/
def throwException {α : Type} (s : EasyScanner) (message : Option String) :
    Except Exception α :=
  Except.error
    { message := match message with
        | some m => m
        | none => s.defaultErrorMessage,
      filename := s.filename,
      lineNumber := s.lineNumber }

/-- Member `readIntEx(const char* message = 0)`. -/
def readIntEx (readInt : PlainReader) (s : EasyScanner) (message : Option String) :
    Except Exception (Int × EasyScanner) :=
  match readInt s with
  | (false, s) => throwException s message
  | (true, s) => Except.ok (s.intValue, s)

/-- Member `readDoubleEx(const char* message = 0)`. -/
def readDoubleEx (readDouble : PlainReader) (s : EasyScanner) (message : Option String) :
    Except Exception (Float × EasyScanner) :=
  match readDouble s with
  | (false, s) => throwException s message
  | (true, s) => Except.ok (s.doubleValue, s)

/-- Member `readCharEx(const char* message = 0)`; the result is `charValue`
converted to `int`. -/
def readCharEx (readChar : PlainReader) (s : EasyScanner) (message : Option String) :
    Except Exception (Int × EasyScanner) :=
  match readChar s with
  | (false, s) => throwException s message
  | (true, s) => Except.ok (charCode s.charValue, s)

/-- Member `readWordEx(const char* message = 0)`. -/
def readWordEx (p : Primitives) (s : EasyScanner) (message : Option String) :
    Except Exception (String × EasyScanner) :=
  match readWord p s with
  | (false, s) => throwException s message
  | (true, s) => Except.ok (s.stringValue, s)

/-- Member `readStringEx(const char* message = 0)`; the plain reader is
called with its default delimiter, the comma (code 44). -/
def readStringEx (p : Primitives) (s : EasyScanner) (message : Option String) :
    Except Exception (String × EasyScanner) :=
  match readString p s 44 with
  | (false, s) => throwException s message
  | (true, s) => Except.ok (s.stringValue, s)

/-- Member `readQuotedStringEx(const char* message = 0)`; the plain reader
is called with its default argument `allowNoQuotedWord = false`. A
diagnostic raised by the plain reader itself passes through. -/
def readQuotedStringEx (readQuotedString : QuotedStringReader) (s : EasyScanner)
    (message : Option String) : Except Exception (String × EasyScanner) :=
  match readQuotedString false s with
  | Except.error e => Except.error e
  | Except.ok (false, s) => throwException s message
  | Except.ok (true, s) => Except.ok (s.stringValue, s)

/-- Member `readSymbolEx(const char* message = 0)`. -/
def readSymbolEx (readSymbol : PlainReader) (s : EasyScanner) (message : Option String) :
    Except Exception (Int × EasyScanner) :=
  match readSymbol s with
  | (false, s) => throwException s message
  | (true, s) => Except.ok (s.symbolValue, s)

/-! ## The out-of-line primitives, modelled from the specification -/

/-- Modelled from the spec: the characters `skipSpace` advances over, whose
definition (`EasyScanner::skipSpace`, with the list `whiteSpaceChars`) is
out of line. They are space, tab and the configured extra characters. A
line feed is never one of them (a consumed line feed is always counted as
a line), and neither is NUL (the cursor never passes the terminator). -/
def isWhiteSpace (whiteSpaceChars : List Int) (c : Char) : Bool :=
  c != NUL && c != LF &&
    (c == Char.ofNat 32 || c == TAB || whiteSpaceChars.contains (charCode c))

/-- Modelled from the spec: the private member `skipToLineEnd()`, declared
in the header and defined out of line. It advances to, but not over, the
next line feed, or to the end of the buffer. -/
def skipToLineEnd (text : List Char) : List Char :=
  text.dropWhile (fun c => c != LF && c != NUL)

/-- Modelled from the spec: one pass of `skipSpace` within a line. The
cursor advances over white space characters and then, when a comment
character is configured (it is not 0) and the cursor is on it, over
everything from that character up to the next line feed. -/
def skipBlanks (commentChar : Int) (whiteSpaceChars : List Int) (text : List Char) :
    List Char :=
  let text := text.dropWhile (isWhiteSpace whiteSpaceChars)
  if commentChar ≠ 0 ∧ charCode (deref text) = commentChar then skipToLineEnd text
  else text

/-- Modelled from the spec: a line-feed sequence at the cursor, a line feed
optionally preceded by a carriage return; the result is the cursor after
it. -/
def lineEnd : List Char → Option (List Char)
  | [] => none
  | c :: rest =>
    if c = LF then some rest
    else if c = CR then
      match rest with
      | [] => none
      | d :: rest => if d = LF then some rest else none
    else none

/-- Modelled from the spec: the loop of `skipSpace`, on the cursor and the
line number. In line-oriented mode one pass is made and no line feed is
crossed. Otherwise, each line end found after a pass is consumed and
counted, and another pass follows. The first argument bounds the number of
passes; `skipSpace` supplies more than the number of remaining bytes. -/
def skipSpaceLoop (isLineOriented : Bool) (commentChar : Int) (whiteSpaceChars : List Int) :
    Nat → List Char → Int → List Char × Int
  | 0, text, lineNumber => (text, lineNumber)
  | fuel + 1, text, lineNumber =>
    let text := skipBlanks commentChar whiteSpaceChars text
    if isLineOriented then (text, lineNumber)
    else
      match lineEnd text with
      | some rest =>
        skipSpaceLoop isLineOriented commentChar whiteSpaceChars fuel rest (lineNumber + 1)
      | none => (text, lineNumber)

/-- Modelled from the spec: `skipSpace()`, declared in the header and
defined out of line. Only the cursor and the line number change. -/
def skipSpace (s : EasyScanner) : EasyScanner :=
  let r := skipSpaceLoop s.isLineOriented s.commentChar s.whiteSpaceChars
    (s.text.length + 1) s.text s.lineNumber
  { s with text := r.1, lineNumber := r.2 }

/-- Modelled from the spec: the private member `readLF0()`, declared in the
header and defined out of line. It consumes exactly one line-feed sequence
and increments the line number; when the cursor is not on a line end it
fails and consumes nothing. -/
def readLF0 (s : EasyScanner) : Bool × EasyScanner :=
  match lineEnd s.text with
  | some rest => (true, { s with text := rest, lineNumber := s.lineNumber + 1 })
  | none => (false, s)

/-- Modelled from the spec: the characters of a word, alphanumerics and the
underscore. -/
def isWordChar (c : Char) : Bool :=
  c.isAlphanum || c == Char.ofNat 95

/-- Modelled from the spec: the private member `readWord0()`, declared in
the header and defined out of line. It consumes the maximal run of word
characters at the cursor and stores it in `stringValue`; when the run is
empty it fails and changes nothing. -/
def readWord0 (s : EasyScanner) : Bool × EasyScanner :=
  let word := s.text.takeWhile isWordChar
  if word.isEmpty then (false, s)
  else (true, { s with text := s.text.dropWhile isWordChar, stringValue := String.mk word })

/-- Modelled from the spec: the characters of a loosely quoted string:
anything but white space (space, tab, line feed, carriage return, the
configured extra characters), the delimiter and the terminator. -/
def isStringChar (whiteSpaceChars : List Int) (delimiterChar : Int) (c : Char) : Bool :=
  c != NUL && c != Char.ofNat 32 && c != TAB && c != LF && c != CR &&
    !(whiteSpaceChars.contains (charCode c)) && charCode c != delimiterChar

/-- Modelled from the spec: the private member `readString0(delimiterChar)`,
declared in the header and defined out of line. Like `readWord0`, with the
characters of `isStringChar`. -/
def readString0 (delimiterChar : Int) (s : EasyScanner) : Bool × EasyScanner :=
  let ok := isStringChar s.whiteSpaceChars delimiterChar
  let str := s.text.takeWhile ok
  if str.isEmpty then (false, s)
  else (true, { s with text := s.text.dropWhile ok, stringValue := String.mk str })

/-- The primitives as the specification describes them. -/
def specified : Primitives :=
  { skipSpace := skipSpace, readLF0 := readLF0, readWord0 := readWord0,
    readString0 := readString0 }

/-- The backslash, the escape character inside a quoted string. -/
def BACKSLASH : Char := Char.ofNat 92

/-- Modelled from the spec: the private member `extractQuotedString()`,
declared in the header and defined out of line, on the bytes after the
opening quote character. The result is the unescaped content and the
cursor after the closing quote character; a backslash followed by the
quote character stands for the quote character. There is no result
(`none`) when the end of the buffer or a line feed comes before the
closing quote character: the string is unterminated. -/
def extractQuotedString (quoteChar : Int) : List Char → Option (List Char × List Char)
  | [] => none
  | [c] =>
    if c = NUL ∨ c = LF then none
    else if charCode c = quoteChar then some ([], [])
    else none
  | c :: d :: rest =>
    if c = NUL ∨ c = LF then none
    else if charCode c = quoteChar then some ([], d :: rest)
    else if c = BACKSLASH ∧ charCode d = quoteChar then
      match extractQuotedString quoteChar rest with
      | some (content, after) => some (d :: content, after)
      | none => none
    else
      match extractQuotedString quoteChar (d :: rest) with
      | some (content, after) => some (c :: content, after)
      | none => none

/-- Modelled from the spec: `readQuotedString(allowNoQuotedWord)`, declared
in the header and defined out of line. After `skipSpace()`, on the quote
character it stores the unescaped content of the quoted string in
`stringValue` and advances past the closing quote character, and it raises
a diagnostic when the string is unterminated. When the cursor is not on
the quote character it falls back to an unquoted word read if
`allowNoQuotedWord` is true, and otherwise fails, consuming nothing after
the skipped white space. -/
def readQuotedString : QuotedStringReader := fun allowNoQuotedWord s =>
  let s := skipSpace s
  match s.text with
  | [] => Except.ok (if allowNoQuotedWord then readWord0 s else (false, s))
  | c :: rest =>
    if c ≠ NUL ∧ charCode c = s.quoteChar then
      match extractQuotedString s.quoteChar rest with
      | some (content, after) =>
        Except.ok (true, { s with text := after, stringValue := String.mk content })
      | none => throwException s none
    else Except.ok (if allowNoQuotedWord then readWord0 s else (false, s))

/-- An `Except` computation ended by raising. -/
def raises {α : Type} : Except Exception α → Bool
  | Except.error _ => true
  | Except.ok _ => false

/-- A call of `readQuotedString` that returned false. -/
def returnsFalse : Except Exception (Bool × EasyScanner) → Bool
  | Except.ok (false, _) => true
  | _ => false

end EasyScanner

/-! ## Lemmas on the ordered entries -/

theorem findEntry_insertEntry_of_none {l : List SymbolPair} {k : String} (v : Int)
    (h : findEntry l k = none) : findEntry (insertEntry l (k, v)) k = some v := by
  induction l with
  | nil => simp [insertEntry, findEntry, keyLess_irrefl]
  | cons q rest ih =>
    obtain ⟨qk, qv⟩ := q
    simp only [findEntry] at h
    simp only [insertEntry]
    split_ifs at h with h₁ h₂
    · simp [h₁, findEntry, ih h]
    · simp [h₁, h₂, findEntry, keyLess_irrefl]

theorem insertEntry_of_some {l : List SymbolPair} {k : String} {w : Int} (v : Int)
    (h : findEntry l k = some w) : insertEntry l (k, v) = l := by
  induction l with
  | nil => simp [findEntry] at h
  | cons q rest ih =>
    obtain ⟨qk, qv⟩ := q
    simp only [findEntry] at h
    simp only [insertEntry]
    split_ifs at h with h₁ h₂
    · simp [h₁, ih h]
    · simp [h₁, h₂]

theorem findEntry_insertEntry_ne {l : List SymbolPair} {k u : String} (v : Int)
    (h : u ≠ k) : findEntry (insertEntry l (k, v)) u = findEntry l u := by
  induction l with
  | nil =>
    simp only [insertEntry, findEntry]
    split_ifs with h₁ h₂
    · rfl
    · rfl
    · exact absurd (eq_of_not_keyLess h₂ h₁) h
  | cons q rest ih =>
    obtain ⟨qk, qv⟩ := q
    simp only [insertEntry]
    split_ifs with h₁ h₂
    · simp only [findEntry, ih]
    · by_cases a : keyLess k u
      · simp [findEntry, a]
      · by_cases b : keyLess u k
        · have c : keyLess u qk := keyLess_trans b h₂
          simp [findEntry, a, b, c, keyLess_asymm c]
        · exact absurd (eq_of_not_keyLess b a) h
    · rfl

theorem mem_of_findEntry {l : List SymbolPair} {k : String} {v : Int}
    (h : findEntry l k = some v) : (k, v) ∈ l := by
  induction l with
  | nil => simp [findEntry] at h
  | cons q rest ih =>
    obtain ⟨qk, qv⟩ := q
    simp only [findEntry] at h
    split_ifs at h with h₁ h₂
    · exact List.mem_cons_of_mem _ (ih h)
    · have hk : k = qk := eq_of_not_keyLess h₂ h₁
      have hv : qv = v := Option.some.inj h
      rw [hk, hv]
      exact List.mem_cons_self _ _

theorem findEntry_of_mem {l : List SymbolPair} {k : String} {v : Int}
    (hl : KeysIncreasing l) (h : (k, v) ∈ l) : findEntry l k = some v := by
  induction l with
  | nil => simp at h
  | cons q rest ih =>
    obtain ⟨qk, qv⟩ := q
    obtain ⟨hq, hrest⟩ := List.pairwise_cons.mp hl
    simp only [findEntry]
    rcases List.mem_cons.mp h with h | h
    · obtain ⟨hk, hv⟩ := Prod.mk.inj h
      subst hk; subst hv
      simp [keyLess_irrefl]
    · have hlt : keyLess qk k := hq (k, v) h
      simp [hlt, ih hrest h]

theorem findEntry_eq_none {l : List SymbolPair} {k : String}
    (h : ∀ v, (k, v) ∉ l) : findEntry l k = none := by
  cases hf : findEntry l k with
  | none => rfl
  | some v => exact absurd (mem_of_findEntry hf) (h v)

theorem mem_insertEntry_of_mem {l : List SymbolPair} {x : SymbolPair} (p : SymbolPair)
    (h : x ∈ l) : x ∈ insertEntry l p := by
  induction l with
  | nil => simp at h
  | cons q rest ih =>
    simp only [insertEntry]
    split_ifs with h₁ h₂
    · rcases List.mem_cons.mp h with h | h
      · exact h ▸ List.mem_cons_self _ _
      · exact List.mem_cons_of_mem _ (ih h)
    · exact List.mem_cons_of_mem _ h
    · exact h

theorem SymbolMap.eq_of_entries {m n : SymbolMap} (h : m.entries = n.entries) : m = n := by
  cases m; cases n; simp only [SymbolMap.mk.injEq]; exact h

theorem SymbolMap.insert_insert (m : SymbolMap) (k : String) (v w : Int) :
    (m.insert (k, v)).insert (k, w) = m.insert (k, v) := by
  apply SymbolMap.eq_of_entries
  show insertEntry (insertEntry m.entries (k, v)) (k, w) = insertEntry m.entries (k, v)
  cases hf : findEntry m.entries k with
  | none => exact insertEntry_of_some w (findEntry_insertEntry_of_none v hf)
  | some old =>
    rw [insertEntry_of_some v hf]
    exact insertEntry_of_some w hf

namespace EasyScanner

/-! ## Symbol table: registration and lookup -/

/-- C1, as stated, fails: on the empty table, registering the text "a"
with id 1 and then with id 2 leaves the lookup of "a" at 1, not at 2. -/
theorem registerSymbol_last_wins_counterexample :
    (getSymbolID (registerSymbol (registerSymbol (start [] 0 true) 1 "a") 2 "a") "a").1 = 1 ∧
    (getSymbolID (registerSymbol (registerSymbol (start [] 0 true) 1 "a") 2 "a") "a").1 ≠ 2 := by
  decide

/-- C1, amended: registering a text a second time changes nothing. After
`registerSymbol(id1, text)` followed by `registerSymbol(id2, text)` the
scanner is the one left by the first registration alone, and
`getSymbolID(text)` returns the id that was stored for the text before both
calls, or `id1` when there was none: the first registration wins. -/
theorem registerSymbol_first_wins (s : EasyScanner) (text : String) (id1 id2 : Int) :
    registerSymbol (registerSymbol s id1 text) id2 text = registerSymbol s id1 text ∧
    (getSymbolID (registerSymbol (registerSymbol s id1 text) id2 text) text).1 =
      (match s.symbols.find text with
       | some old => old
       | none => id1) := by
  have h : registerSymbol (registerSymbol s id1 text) id2 text = registerSymbol s id1 text := by
    simp only [registerSymbol, SymbolMap.insert_insert]
  refine ⟨h, ?_⟩
  rw [h]
  simp only [getSymbolID, registerSymbol, SymbolMap.find, SymbolMap.insert]
  cases hf : findEntry s.symbols.entries text with
  | none => simp [findEntry_insertEntry_of_none id1 hf]
  | some old => simp [insertEntry_of_some id1 hf, hf]

/-- C2: when the table has no entry for `text`, the lookup of `text` after
`registerSymbol(id, text)` returns exactly `id`. -/
theorem getSymbolID_registerSymbol (s : EasyScanner) (id : Int) (text : String)
    (h : ∀ v, (text, v) ∉ s.symbols.entries) :
    (getSymbolID (registerSymbol s id text) text).1 = id := by
  simp only [getSymbolID, registerSymbol, SymbolMap.find, SymbolMap.insert]
  simp [findEntry_insertEntry_of_none id (findEntry_eq_none h)]

/-- Witness of C2: the table holds "b" with id 5, and "a" is registered
with id 7. -/
theorem getSymbolID_registerSymbol_witness :
    (∀ v, (("a" : String), v) ∉ (registerSymbol (start [] 0 true) 5 "b").symbols.entries) ∧
    (getSymbolID (registerSymbol (registerSymbol (start [] 0 true) 5 "b") 7 "a") "a").1 = 7 :=
  have h : ∀ v, (("a" : String), v) ∉ (registerSymbol (start [] 0 true) 5 "b").symbols.entries := by
    intro v hv
    have hv2 : (("a" : String), v) ∈ [(("b" : String), (5 : Int))] := hv
    simp at hv2
  ⟨h, getSymbolID_registerSymbol (registerSymbol (start [] 0 true) 5 "b") 7 "a" h⟩

/-- C3: `getSymbolID(text)` is a total lookup with sentinel 0. It returns
the id stored for `text` when the table has an entry for it, 0 when the
table has none, 0 for every text on the empty table, and it leaves the
scanner (the table included) as it was. -/
theorem getSymbolID_lookup (s : EasyScanner) (text : String) :
    (∀ id, (text, id) ∈ s.symbols.entries → (getSymbolID s text).1 = id) ∧
    ((∀ id, (text, id) ∉ s.symbols.entries) → (getSymbolID s text).1 = 0) ∧
    (getSymbolID { s with symbols := SymbolMap.empty } text).1 = 0 ∧
    (getSymbolID s text).2 = s := by
  refine ⟨?_, ?_, ?_, rfl⟩
  · intro id hid
    simp [getSymbolID, SymbolMap.find, findEntry_of_mem s.symbols.ordered hid]
  · intro h
    simp [getSymbolID, SymbolMap.find, findEntry_eq_none h]
  · simp [getSymbolID, SymbolMap.find, SymbolMap.empty, findEntry]

/-- Witness of C3: with "b" stored under id 5, the lookup of "b" returns 5
and the lookup of "a" returns 0. -/
theorem getSymbolID_lookup_witness :
    (getSymbolID (registerSymbol (start [] 0 true) 5 "b") "b").1 = 5 ∧
    (getSymbolID (registerSymbol (start [] 0 true) 5 "b") "a").1 = 0 :=
  ⟨(getSymbolID_lookup (registerSymbol (start [] 0 true) 5 "b") "b").1 5
      (List.mem_singleton.mpr rfl),
   (getSymbolID_lookup (registerSymbol (start [] 0 true) 5 "b") "a").2.1
      (fun id hid => by
        have h2 : (("a" : String), id) ∈ [(("b" : String), (5 : Int))] := hid
        simp at h2)⟩

/-- C9: `registerSymbol(id, t)` touches only the text `t`. For a text `u`
different from `t` the lookup of `u` is the same before and after, and the
table holds exactly the same entries for `u` (none removed, none changed,
whatever their ids). -/
theorem registerSymbol_frame (s : EasyScanner) (id : Int) (t u : String) (h : u ≠ t) :
    (getSymbolID (registerSymbol s id t) u).1 = (getSymbolID s u).1 ∧
    ∀ v, (u, v) ∈ (registerSymbol s id t).symbols.entries ↔ (u, v) ∈ s.symbols.entries := by
  constructor
  · simp only [getSymbolID, registerSymbol, SymbolMap.find, SymbolMap.insert]
    rw [findEntry_insertEntry_ne id h]
  · intro v
    constructor
    · intro hv
      rcases mem_insertEntry hv with hv | hv
      · exact absurd (Prod.mk.inj hv).1 h
      · exact hv
    · intro hv
      exact mem_insertEntry_of_mem _ hv

/-- Witness of C9: "b" is stored under id 5; registering "a" under the same
id 5 leaves the lookup of "b" at 5. -/
theorem registerSymbol_frame_witness :
    ("b" : String) ≠ "a" ∧
    (getSymbolID (registerSymbol (registerSymbol (start [] 0 true) 5 "b") 5 "a") "b").1 =
      (getSymbolID (registerSymbol (start [] 0 true) 5 "b") "b").1 :=
  ⟨by decide,
   (registerSymbol_frame (registerSymbol (start [] 0 true) 5 "b") 5 "a" "b" (by decide)).1⟩

/-- C10: a lookup result different from 0 is the id of an entry of the
table for that text; the converse fails: the text "a" registered with id 0
has an entry, and its lookup returns 0, the result of the lookup on a table
without any entry for "a". -/
theorem getSymbolID_sentinel :
    (∀ (s : EasyScanner) (text : String), (getSymbolID s text).1 ≠ 0 →
      (text, (getSymbolID s text).1) ∈ s.symbols.entries) ∧
    (∃ (s : EasyScanner) (text : String),
      (∃ id, (text, id) ∈ s.symbols.entries) ∧ (getSymbolID s text).1 = 0 ∧
      (getSymbolID { s with symbols := SymbolMap.empty } text).1 = 0) := by
  constructor
  · intro s text h
    simp only [getSymbolID, SymbolMap.find] at h ⊢
    cases hf : findEntry s.symbols.entries text with
    | none => rw [hf] at h; exact absurd rfl h
    | some v => exact mem_of_findEntry hf
  · refine ⟨registerSymbol (start [] 0 true) 0 "a", "a", ⟨0, ?_⟩, ?_, ?_⟩
    · exact List.mem_singleton.mpr rfl
    · decide
    · decide

/-! ## White space skipping -/

theorem dropWhile_fixed {α : Type} (p : α → Bool) (l : List α) :
    (l.dropWhile p).dropWhile p = l.dropWhile p := by
  induction l with
  | nil => rfl
  | cons a l ih =>
    by_cases h : p a = true
    · simp only [List.dropWhile_cons_of_pos h, ih]
    · have h2 : (a :: l).dropWhile p = a :: l := List.dropWhile_cons_of_neg h
      rw [h2, h2]

theorem dropWhile_of_deref {p : Char → Bool} {l : List Char}
    (h : p (deref l) = false) : l.dropWhile p = l := by
  cases l with
  | nil => rfl
  | cons a l =>
    have h2 : p a = false := h
    simp [List.dropWhile_cons, h2]

theorem deref_dropWhile (p : Char → Bool) (hnil : p NUL = false) (l : List Char) :
    p (deref (l.dropWhile p)) = false := by
  induction l with
  | nil => exact hnil
  | cons a l ih =>
    by_cases h : p a = true
    · simp only [List.dropWhile_cons_of_pos h, ih]
    · have h2 : (a :: l).dropWhile p = a :: l := List.dropWhile_cons_of_neg h
      rw [h2]
      simpa [deref] using h

theorem isWhiteSpace_NUL (ws : List Int) : isWhiteSpace ws NUL = false := by
  simp [isWhiteSpace]

theorem isWhiteSpace_LF (ws : List Int) : isWhiteSpace ws LF = false := by
  simp [isWhiteSpace]

theorem deref_skipToLineEnd (text : List Char) :
    deref (skipToLineEnd text) = LF ∨ deref (skipToLineEnd text) = NUL := by
  have h := deref_dropWhile (fun c => c != LF && c != NUL) (by simp) text
  unfold skipToLineEnd
  generalize deref (List.dropWhile (fun c => c != LF && c != NUL) text) = c at h
  by_cases h₁ : c = LF
  · exact Or.inl h₁
  · by_cases h₂ : c = NUL
    · exact Or.inr h₂
    · simp [h₁, h₂] at h

theorem skipToLineEnd_fixed (text : List Char) :
    skipToLineEnd (skipToLineEnd text) = skipToLineEnd text :=
  dropWhile_fixed _ text

theorem charCode_NUL : charCode NUL = 0 := by decide

/-- A second pass of `skipBlanks` finds nothing to skip. -/
theorem skipBlanks_fixed (commentChar : Int) (ws : List Int) (text : List Char) :
    skipBlanks commentChar ws (skipBlanks commentChar ws text) =
      skipBlanks commentChar ws text := by
  have hws := deref_dropWhile (isWhiteSpace ws) (isWhiteSpace_NUL ws) text
  have hfix := dropWhile_fixed (isWhiteSpace ws) text
  unfold skipBlanks
  simp only []
  generalize List.dropWhile (isWhiteSpace ws) text = t at hws hfix
  by_cases hc : commentChar ≠ 0 ∧ charCode (deref t) = commentChar
  · rw [if_pos hc]
    have hd : List.dropWhile (isWhiteSpace ws) (skipToLineEnd t) = skipToLineEnd t := by
      apply dropWhile_of_deref
      rcases deref_skipToLineEnd t with h | h
      · rw [h]; exact isWhiteSpace_LF ws
      · rw [h]; exact isWhiteSpace_NUL ws
    rw [hd]
    split_ifs
    · exact skipToLineEnd_fixed t
    · rfl
  · rw [if_neg hc, hfix, if_neg hc]

theorem length_dropWhile_le_self {α : Type} (p : α → Bool) (l : List α) :
    (l.dropWhile p).length ≤ l.length := by
  induction l with
  | nil => exact Nat.le_refl _
  | cons a l ih =>
    by_cases h : p a = true
    · rw [List.dropWhile_cons_of_pos h]
      exact Nat.le_succ_of_le ih
    · have h2 : (a :: l).dropWhile p = a :: l := List.dropWhile_cons_of_neg h
      rw [h2]

theorem skipBlanks_length_le (commentChar : Int) (ws : List Int) (text : List Char) :
    (skipBlanks commentChar ws text).length ≤ text.length := by
  unfold skipBlanks
  simp only []
  split_ifs
  · exact Nat.le_trans (length_dropWhile_le_self _ _) (length_dropWhile_le_self _ _)
  · exact length_dropWhile_le_self _ _

theorem lineEnd_length_lt {text rest : List Char} (h : lineEnd text = some rest) :
    rest.length < text.length := by
  cases text with
  | nil => simp [lineEnd] at h
  | cons c t =>
    simp only [lineEnd] at h
    split_ifs at h with h₁ h₂
    · cases h; simp
    · cases t with
      | nil => simp at h
      | cons d t2 =>
        simp only at h
        split_ifs at h
        cases h; simp; omega

/-- After enough passes the cursor is on nothing `skipSpace` skips: another
pass of `skipBlanks` leaves it in place and, outside line-oriented mode, it
is not on a line end. -/
theorem skipSpaceLoop_settled (lo : Bool) (commentChar : Int) (ws : List Int) :
    ∀ (fuel : Nat) (text : List Char) (n : Int), text.length < fuel →
      skipBlanks commentChar ws (skipSpaceLoop lo commentChar ws fuel text n).1 =
        (skipSpaceLoop lo commentChar ws fuel text n).1 ∧
      (lo = false → lineEnd (skipSpaceLoop lo commentChar ws fuel text n).1 = none) := by
  intro fuel
  induction fuel with
  | zero => intro text n h; exact absurd h (Nat.not_lt_zero _)
  | succ fuel ih =>
    intro text n h
    simp only [skipSpaceLoop]
    cases lo with
    | true =>
      simp only [if_true]
      exact ⟨skipBlanks_fixed commentChar ws text, fun hlo => absurd hlo (by decide)⟩
    | false =>
      simp only [Bool.false_eq_true, if_false]
      cases hle : lineEnd (skipBlanks commentChar ws text) with
      | none =>
        simp only []
        exact ⟨skipBlanks_fixed commentChar ws text, fun _ => hle⟩
      | some rest =>
        simp only []
        have h₁ := lineEnd_length_lt hle
        have h₂ := skipBlanks_length_le commentChar ws text
        obtain ⟨a, b⟩ := ih rest (n + 1) (by omega)
        exact ⟨a, fun _ => b rfl⟩

/-- On a settled cursor the loop of `skipSpace` changes nothing. -/
theorem skipSpaceLoop_of_settled (lo : Bool) (commentChar : Int) (ws : List Int)
    (fuel : Nat) (text : List Char) (n : Int)
    (h₁ : skipBlanks commentChar ws text = text)
    (h₂ : lo = false → lineEnd text = none) :
    skipSpaceLoop lo commentChar ws (fuel + 1) text n = (text, n) := by
  simp only [skipSpaceLoop, h₁]
  cases lo with
  | true => simp
  | false => simp [h₂ rfl]

/-- C8: `skipSpace` is idempotent. For every scanner state (and so for every
configuration of comment character, extra white space characters and line
mode), a second call in a row leaves every member of the scanner as the
first call left it. -/
theorem skipSpace_idempotent (s : EasyScanner) : skipSpace (skipSpace s) = skipSpace s := by
  obtain ⟨h₁, h₂⟩ := skipSpaceLoop_settled s.isLineOriented s.commentChar s.whiteSpaceChars
    (s.text.length + 1) s.text s.lineNumber (Nat.lt_succ_self _)
  simp only [skipSpace]
  rw [skipSpaceLoop_of_settled _ _ _ _ _ _ h₁ h₂]

/-- The bound on the passes is never what stops the loop: any two bounds
above the number of remaining bytes give the same result. -/
theorem skipSpaceLoop_fuel (lo : Bool) (commentChar : Int) (ws : List Int) :
    ∀ (fuel fuel2 : Nat) (text : List Char) (n : Int),
      text.length < fuel → text.length < fuel2 →
      skipSpaceLoop lo commentChar ws fuel text n =
        skipSpaceLoop lo commentChar ws fuel2 text n := by
  intro fuel
  induction fuel with
  | zero => intro fuel2 text n h; exact absurd h (Nat.not_lt_zero _)
  | succ fuel ih =>
    intro fuel2 text n h h2
    cases fuel2 with
    | zero => exact absurd h2 (Nat.not_lt_zero _)
    | succ fuel2 =>
      simp only [skipSpaceLoop]
      split_ifs
      · rfl
      · cases hle : lineEnd (skipBlanks commentChar ws text) with
        | none => rfl
        | some rest =>
          simp only []
          have h₁ := lineEnd_length_lt hle
          have h₂ := skipBlanks_length_le commentChar ws text
          exact ih fuel2 rest (n + 1) (by omega) (by omega)

/-- The modelled primitives on the comment example of the specification:
with comment character `#` (code 35), outside line-oriented mode, the text
"a # ignored", line feed, "b", line feed yields the word "a" and then the
word "b" on line 2. -/
theorem readWord_comment_example :
    (readWord specified (start "a # ignored\nb\n".toList 35 false)).1 = true ∧
    (readWord specified (start "a # ignored\nb\n".toList 35 false)).2.stringValue = "a" ∧
    (readWord specified
      (readWord specified (start "a # ignored\nb\n".toList 35 false)).2).1 = true ∧
    (readWord specified
      (readWord specified (start "a # ignored\nb\n".toList 35 false)).2).2.stringValue = "b" ∧
    (readWord specified
      (readWord specified (start "a # ignored\nb\n".toList 35 false)).2).2.lineNumber = 2 := by
  decide

/-- The modelled primitives at the end of a line in line-oriented mode: on
the text of two spaces and a line feed, `skipSpace()` stops on the line
feed, `readLF()` consumes it and counts the line, and `isEOF()` then
returns true. -/
theorem readLF_example :
    (skipSpace (start "  \n".toList 0 true)).text = "\n".toList ∧
    (readLF specified (start "  \n".toList 0 true)).1 = true ∧
    (readLF specified (start "  \n".toList 0 true)).2.lineNumber = 2 ∧
    (isEOF specified (readLF specified (start "  \n".toList 0 true)).2).1 = true := by
  decide

/-! ## Plain readers on failure -/

theorem readLF0_false {s : EasyScanner} (h : (readLF0 s).1 = false) : (readLF0 s).2 = s := by
  unfold readLF0 at h ⊢
  cases hle : lineEnd s.text with
  | none => rfl
  | some rest => rw [hle] at h; simp at h

theorem readWord0_false {s : EasyScanner} (h : (readWord0 s).1 = false) :
    (readWord0 s).2 = s := by
  unfold readWord0 at h ⊢
  by_cases h₁ : (s.text.takeWhile isWordChar).isEmpty = true
  · simp [h₁]
  · simp [h₁] at h

theorem readString0_false {s : EasyScanner} {d : Int} (h : (readString0 d s).1 = false) :
    (readString0 d s).2 = s := by
  unfold readString0 at h ⊢
  by_cases h₁ : (s.text.takeWhile (isStringChar s.whiteSpaceChars d)).isEmpty = true
  · simp [h₁]
  · simp [h₁] at h

/-- C4, as stated, fails: on the text " ," (a space, then a comma) each of
`readWord()`, `readString(',')` and `readLF()` returns false, and the
cursor has moved from the space to the comma: the leading white space has
been consumed. -/
theorem plain_readers_atomic_counterexample :
    ((readWord specified (start " ,".toList 0 true)).1 = false ∧
      (readWord specified (start " ,".toList 0 true)).2.text = ",".toList ∧
      (readWord specified (start " ,".toList 0 true)).2.text ≠
        (start " ,".toList 0 true).text) ∧
    ((readString specified (start " ,".toList 0 true) 44).1 = false ∧
      (readString specified (start " ,".toList 0 true) 44).2.text = ",".toList ∧
      (readString specified (start " ,".toList 0 true) 44).2.text ≠
        (start " ,".toList 0 true).text) ∧
    ((readLF specified (start " ,".toList 0 true)).1 = false ∧
      (readLF specified (start " ,".toList 0 true)).2.text = ",".toList ∧
      (readLF specified (start " ,".toList 0 true)).2.text ≠
        (start " ,".toList 0 true).text) := by
  decide

/-- C4, amended: whenever `readWord()`, `readString(delimiter)` or
`readLF()` returns false, the scanner is in exactly the state `skipSpace()`
alone leaves it in: what `skipSpace` skips has been consumed and nothing
after it. -/
theorem plain_readers_fail_after_skipSpace (s : EasyScanner) (delimiter : Int) :
    ((readWord specified s).1 = false → (readWord specified s).2 = skipSpace s) ∧
    ((readString specified s delimiter).1 = false →
      (readString specified s delimiter).2 = skipSpace s) ∧
    ((readLF specified s).1 = false → (readLF specified s).2 = skipSpace s) :=
  ⟨fun h => readWord0_false h, fun h => readString0_false h, fun h => readLF0_false h⟩

/-- Witness of C4, amended: on the text " ," the failing `readWord()` leaves
the scanner where `skipSpace()` alone does. -/
theorem plain_readers_fail_after_skipSpace_witness :
    (readWord specified (start " ,".toList 0 true)).1 = false ∧
    (readWord specified (start " ,".toList 0 true)).2 = skipSpace (start " ,".toList 0 true) :=
  ⟨by decide,
   (plain_readers_fail_after_skipSpace (start " ,".toList 0 true) 44).1 (by decide)⟩

/-! ## The raising readers -/

theorem raises_throwException {α : Type} (s : EasyScanner) (message : Option String) :
    raises (throwException s message : Except Exception α) = true := rfl

/-- The shape shared by the `...Ex` members: call the plain reader, raise
when it returned false, otherwise return a member of the scanner. -/
theorem ex_reader {α : Type} (read : EasyScanner → Bool × EasyScanner)
    (value : EasyScanner → α) (s : EasyScanner) (message : Option String) :
    (raises (match read s with
        | (false, s) => throwException s message
        | (true, s) => Except.ok (value s, s)) = true ↔ (read s).1 = false) ∧
    ((read s).1 = true →
      (match read s with
        | (false, s) => throwException s message
        | (true, s) => Except.ok (value s, s)) = Except.ok (value (read s).2, (read s).2)) := by
  rcases hr : read s with ⟨b, s2⟩
  cases b with
  | false => simp [raises, throwException]
  | true => simp [raises]

/-- The shape of `readQuotedStringEx`, whose plain reader can raise by
itself. -/
theorem quoted_ex_reader (readQuotedString : QuotedStringReader) (s : EasyScanner)
    (message : Option String) :
    (raises (readQuotedStringEx readQuotedString s message) = true ↔
      (returnsFalse (readQuotedString false s) = true ∨
        raises (readQuotedString false s) = true)) ∧
    (∀ e, readQuotedString false s = Except.error e →
      readQuotedStringEx readQuotedString s message = Except.error e) ∧
    (∀ s2, readQuotedString false s = Except.ok (true, s2) →
      readQuotedStringEx readQuotedString s message = Except.ok (s2.stringValue, s2)) := by
  unfold readQuotedStringEx
  rcases hr : readQuotedString false s with e | ⟨b, s2⟩
  · simp [raises, returnsFalse]
  · cases b with
    | false => simp [raises, returnsFalse, throwException]
    | true => simp [raises, returnsFalse]

/-- C5, as stated, fails for `readQuotedStringEx`: on the text of a quote
character followed by "abc", a quoted string that is never closed,
`readQuotedStringEx` raises, and `readQuotedString(false)` has not returned
false: it has raised the diagnostic by itself. -/
theorem readQuotedStringEx_raise_iff_counterexample :
    raises (readQuotedStringEx readQuotedString
      (start (Char.ofNat 34 :: "abc".toList) 0 true) none) = true ∧
    returnsFalse (readQuotedString false (start (Char.ofNat 34 :: "abc".toList) 0 true)) =
      false ∧
    raises (readQuotedString false (start (Char.ofNat 34 :: "abc".toList) 0 true)) = true := by
  decide

/-- C5, amended: each of `readIntEx`, `readDoubleEx`, `readCharEx`,
`readWordEx`, `readStringEx` and `readSymbolEx` raises if and only if the
corresponding plain reader, called with its default arguments (`readString`
with the comma), returns false on that state; `readQuotedStringEx` raises if
and only if `readQuotedString(false)` returns false or raises by itself, and
in the latter case the diagnostic of the plain reader is the one raised.
When the plain reader returns true, the `...Ex` member returns the value
member of the scanner the plain reader left (`intValue`, `doubleValue`,
`charValue` as the `int` of a signed byte, `stringValue` or `symbolValue`)
together with that scanner. -/
theorem ex_readers_raise_iff (readInt readDouble readChar readSymbol : PlainReader)
    (readQuotedString : QuotedStringReader) (p : Primitives) (s : EasyScanner)
    (message : Option String) :
    ((raises (readIntEx readInt s message) = true ↔ (readInt s).1 = false) ∧
      ((readInt s).1 = true →
        readIntEx readInt s message = Except.ok ((readInt s).2.intValue, (readInt s).2))) ∧
    ((raises (readDoubleEx readDouble s message) = true ↔ (readDouble s).1 = false) ∧
      ((readDouble s).1 = true →
        readDoubleEx readDouble s message =
          Except.ok ((readDouble s).2.doubleValue, (readDouble s).2))) ∧
    ((raises (readCharEx readChar s message) = true ↔ (readChar s).1 = false) ∧
      ((readChar s).1 = true →
        readCharEx readChar s message =
          Except.ok
            (if (readChar s).2.charValue.toNat % 256 < 128
              then (((readChar s).2.charValue.toNat % 256 : Nat) : Int)
              else (((readChar s).2.charValue.toNat % 256 : Nat) : Int) - 256,
             (readChar s).2))) ∧
    ((raises (readWordEx p s message) = true ↔ (readWord p s).1 = false) ∧
      ((readWord p s).1 = true →
        readWordEx p s message = Except.ok ((readWord p s).2.stringValue, (readWord p s).2))) ∧
    ((raises (readStringEx p s message) = true ↔ (readString p s 44).1 = false) ∧
      ((readString p s 44).1 = true →
        readStringEx p s message =
          Except.ok ((readString p s 44).2.stringValue, (readString p s 44).2))) ∧
    ((raises (readQuotedStringEx readQuotedString s message) = true ↔
        (returnsFalse (readQuotedString false s) = true ∨
          raises (readQuotedString false s) = true)) ∧
      (∀ e, readQuotedString false s = Except.error e →
        readQuotedStringEx readQuotedString s message = Except.error e) ∧
      (∀ s2, readQuotedString false s = Except.ok (true, s2) →
        readQuotedStringEx readQuotedString s message = Except.ok (s2.stringValue, s2))) ∧
    ((raises (readSymbolEx readSymbol s message) = true ↔ (readSymbol s).1 = false) ∧
      ((readSymbol s).1 = true →
        readSymbolEx readSymbol s message =
          Except.ok ((readSymbol s).2.symbolValue, (readSymbol s).2))) :=
  ⟨ex_reader readInt (fun s => s.intValue) s message,
   ex_reader readDouble (fun s => s.doubleValue) s message,
   ex_reader readChar (fun s => charCode s.charValue) s message,
   ex_reader (readWord p) (fun s => s.stringValue) s message,
   ex_reader (fun s => readString p s 44) (fun s => s.stringValue) s message,
   quoted_ex_reader readQuotedString s message,
   ex_reader readSymbol (fun s => s.symbolValue) s message⟩

/-- Witness of C5, amended: after a reader that stored the byte 0xE9 in
`charValue`, `readCharEx` returns -23; on the quoted string "ab" between two
quote characters, `readQuotedStringEx` returns "ab". -/
theorem ex_readers_raise_iff_witness :
    (∃ s2, readCharEx (fun s => (true, { s with charValue := Char.ofNat 233 }))
      (start [] 0 true) none = Except.ok (-23, s2)) ∧
    (∃ s2, readQuotedStringEx readQuotedString
      (start (Char.ofNat 34 :: "ab".toList ++ [Char.ofNat 34]) 0 true) none =
        Except.ok ("ab", s2)) :=
  ⟨⟨_, (ex_readers_raise_iff (fun s => (false, s)) (fun s => (false, s))
      (fun s => (true, { s with charValue := Char.ofNat 233 })) (fun s => (false, s))
      readQuotedString specified (start [] 0 true) none).2.2.1.2 rfl⟩,
   ⟨_, (ex_readers_raise_iff (fun s => (false, s)) (fun s => (false, s))
      (fun s => (false, s)) (fun s => (false, s))
      readQuotedString specified
      (start (Char.ofNat 34 :: "ab".toList ++ [Char.ofNat 34]) 0 true) none).2.2.2.2.2.1.2.2
      _ rfl⟩⟩

/-! ## Line ends and the end of the buffer -/

/-- C6: `readLFEOF()` returns true exactly when, after `skipSpace()`,
`readLF0()` consumes a line end or the byte at the cursor is the
terminating NUL. The byte is the one the code reads, under the cursor as
`readLF0` left it; when a failing `readLF0` leaves the cursor in place it is
the byte under the cursor `skipSpace` left. Consequently `readLFEOF()`
returns true on every state on which `readLF()` returns true. -/
theorem readLFEOF_iff (p : Primitives) (s : EasyScanner) :
    ((readLFEOF p s).1 = true ↔
      (p.readLF0 (p.skipSpace s)).1 = true ∨
        deref (p.readLF0 (p.skipSpace s)).2.text = NUL) ∧
    (((p.readLF0 (p.skipSpace s)).1 = false →
        (p.readLF0 (p.skipSpace s)).2.text = (p.skipSpace s).text) →
      ((readLFEOF p s).1 = true ↔
        (p.readLF0 (p.skipSpace s)).1 = true ∨ deref (p.skipSpace s).text = NUL)) ∧
    ((readLF p s).1 = true → (readLFEOF p s).1 = true) := by
  have e₁ : readLFEOF p s =
      (if (p.readLF0 (p.skipSpace s)).1 then true
        else deref (p.readLF0 (p.skipSpace s)).2.text == NUL,
       (p.readLF0 (p.skipSpace s)).2) := rfl
  have e₂ : readLF p s = p.readLF0 (p.skipSpace s) := rfl
  rw [e₁, e₂]
  generalize p.readLF0 (p.skipSpace s) = x
  obtain ⟨b, s2⟩ := x
  cases b with
  | true => simp
  | false =>
    simp only [Bool.false_eq_true, if_false, false_or, beq_iff_eq, true_and, false_implies,
      and_true, forall_const]
    intro h
    rw [h]

/-- Witness of C6: at the end of an empty text `readLF0` fails in place, the
byte at the cursor is NUL, and `readLFEOF()` returns true. -/
theorem readLFEOF_iff_witness :
    (readLFEOF specified (start [] 0 true)).1 = true ∧
    ((specified.readLF0 (specified.skipSpace (start [] 0 true))).1 = true ∨
      deref (specified.skipSpace (start [] 0 true)).text = NUL) :=
  ⟨by decide,
   ((readLFEOF_iff specified (start [] 0 true)).2.1 (fun _ => rfl)).mp (by decide)⟩

/-- C7: `isEOF()` leaves the scanner in exactly the state `skipSpace()`
alone leaves it in, and returns true if and only if the byte at the cursor
after that skip is the terminating NUL. -/
theorem isEOF_skip_then_peek (p : Primitives) (s : EasyScanner) :
    (isEOF p s).2 = p.skipSpace s ∧
    ((isEOF p s).1 = true ↔ deref (p.skipSpace s).text = NUL) := by
  simp [isEOF]

end EasyScanner

end OpenHRP
